import Mathlib

/-!
Shallow embedding of the lorry-mirror-updater orchestration pipeline
(`lorry_mirror_updater/__main__.py`).

External commands (git, bst, bst-to-lorry) are modelled by an environment
`Env` of outcome oracles; every function of the source that runs commands is
embedded as a pure function returning its Python return value together with
the ordered trace of external effects (`List Event`) it performs.
-/

namespace LorryMirrorUpdater

/-- UTC wall-clock time: the fields of `datetime.datetime.now(datetime.timezone.utc)`
observed by `strftime("%Y%m%d%H%M%S")` in `create_branch`. -/
structure UTCTime where
  year : Nat
  month : Nat
  day : Nat
  hour : Nat
  minute : Nat
  second : Nat
deriving DecidableEq

/-- Zero-padded two-digit strftime field (`%m`, `%d`, `%H`, `%M`, `%S`). -/
def pad2 (n : Nat) : String :=
  if n < 10 then "0" ++ toString n else toString n

/-- Zero-padded four-digit strftime year field (`%Y`). -/
def pad4 (n : Nat) : String :=
  if n < 10 then "000" ++ toString n
  else if n < 100 then "00" ++ toString n
  else if n < 1000 then "0" ++ toString n
  else toString n

/-- `strftime("%Y%m%d%H%M%S")` applied to a UTC time (line 229 of the source). -/
def strftimeTimestamp (t : UTCTime) : String :=
  pad4 t.year ++ pad2 t.month ++ pad2 t.day ++ pad2 t.hour ++ pad2 t.minute ++ pad2 t.second

/-- One external effect performed by the program. `repoPath = none` means the
invocation ran in the process current working directory (the target
repository), mirroring the `repo_path=None` default of `run_git`. -/
inductive Event where
  | clone (url : String) (ok : Bool)
  | checkout (branch : String) (repoPath : Option String) (ok : Bool)
  | element (name : String) (path : String) (ok : Bool)
  | bst (command : List String) (cwd : String) (ok : Bool)
  | status (repoPath : Option String) (subdir : Option String) (dirty : Bool)
  | createBranch (name : String) (base : String) (ok : Bool)
  | add (paths : List String) (ok : Bool)
  | commit (message : String) (ok : Bool)
deriving DecidableEq

/-- Outcome oracles for the external world: which commands succeed, what
`git status --porcelain` prints (`none` models the command itself failing),
the fresh temporary directory `tempfile.TemporaryDirectory` hands out per
URL, and the current UTC time. -/
structure Env where
  cloneOk : String → Bool
  tmpdir : String → String
  checkoutOk : String → Option String → Bool
  elementOk : String → String → Bool
  bstOk : List String → String → Bool
  gitStatus : Option String → Option String → Option String
  createBranchOk : String → String → Bool
  addOk : List String → Bool
  commitOk : Bool
  now : UTCTime

/-- Characters after the last `/`, i.e. Python `s.split("/")[-1]`. -/
def lastSegChars (cs : List Char) : List Char :=
  (cs.reverse.takeWhile (fun c => !(c == '/'))).reverse

/-- Final path component of a string, Python `s.split("/")[-1]`. -/
def lastPathComponent (s : String) : String :=
  String.mk (lastSegChars s.data)

/-- Fuel-driven worker for `stripGitAll`: removes every non-overlapping
occurrence of `.git`, scanning left to right, exactly as Python
`str.replace(".git", "")` does. The fuel (instantiated with the list length,
an upper bound on the number of steps) only makes the recursion structural. -/
def stripGitAllAux : Nat → List Char → List Char
  | _, [] => []
  | 0, cs => cs
  | fuel + 1, c :: rest =>
    if c == '.' && rest.take 3 == ['g', 'i', 't'] then stripGitAllAux fuel (rest.drop 3)
    else c :: stripGitAllAux fuel rest

/-- Python `cs.replace(".git", "")`: drop every non-overlapping occurrence of
`.git`, left to right. -/
def stripGitAll (cs : List Char) : List Char :=
  stripGitAllAux cs.length cs

/-- `url.split("/")[-1].replace(".git", "")` (line 200 of the source). -/
def repoNameFromUrl (url : String) : String :=
  String.mk (stripGitAll (lastSegChars url.data))

/-- `clone_repo` (lines 197-212): clone `url` into
`<fresh tmpdir>/<repo_name>`; on `git clone` failure yield `(False, None)`
instead of raising. -/
def clone_repo (env : Env) (url : String) : (Bool × Option String) × List Event :=
  let dest := env.tmpdir url ++ "/" ++ repoNameFromUrl url
  if env.cloneOk url then ((true, some dest), [Event.clone url true])
  else ((false, none), [Event.clone url false])

/-- `checkout_branch` (lines 215-225): `git checkout <branch>` in
`repo_path` (`none` = current working directory), `True` iff it succeeded. -/
def checkout_branch (env : Env) (branch : String) (repoPath : Option String := none) :
    Bool × List Event :=
  let ok := env.checkoutOk branch repoPath
  (ok, [Event.checkout branch repoPath ok])

/-- `element_exists` (lines 63-83): `bst show` existence probe for one
element in the given checkout; exit 0 means the element exists. -/
def element_exists (env : Env) (element : String) (path : String) : Bool × List Event :=
  let ok := env.elementOk element path
  (ok, [Event.element element path ok])

/-- The `command` list built by `run_bst_to_lorry` (lines 250-263): the
elements, the two output directories, `--refspecs` exactly when `lorry2` is
false, then one `--exclude-alias <alias>` pair per excluded alias. -/
def bstToLorryCommand (elements : List String) (git_dir raw_files_dir : String)
    (exclude_aliases : List String) (lorry2 : Bool) : List String :=
  ["bst-to-lorry"] ++ elements ++
      ["--git-directory", git_dir, "--raw-files-directory", raw_files_dir] ++
    (if lorry2 then [] else ["--refspecs"]) ++
    (exclude_aliases.map (fun a => ["--exclude-alias", a])).flatten

/-- `run_bst_to_lorry` (lines 242-270): run the built command in `cwd`,
`True` iff it exited 0. -/
def run_bst_to_lorry (env : Env) (elements : List String) (git_dir raw_files_dir : String)
    (exclude_aliases : List String) (cwd : String) (lorry2 : Bool := false) :
    Bool × List Event :=
  let command := bstToLorryCommand elements git_dir raw_files_dir exclude_aliases lorry2
  let ok := env.bstOk command cwd
  (ok, [Event.bst command cwd ok])

/-- Python `bool(out.strip())`: true iff the string still has content after
stripping leading and trailing whitespace, i.e. iff it contains any
non-whitespace character. -/
def strippedNonempty (out : String) : Bool :=
  out.data.any (fun c => !c.isWhitespace)

/-- `is_dirty` (lines 114-124): `git status --porcelain [-- subdir]`; dirty
iff the stripped output is non-empty; a failing status query is reported as
dirty (fail-safe). -/
def is_dirty (env : Env) (repoPath : Option String := none) (subdir : Option String := none) :
    Bool × List Event :=
  match env.gitStatus repoPath subdir with
  | none => (true, [Event.status repoPath subdir true])
  | some out =>
    let d := strippedNonempty out
    (d, [Event.status repoPath subdir d])

/-- `git_add` (lines 127-137): `git add <paths>` in `repoPath`. -/
def git_add (env : Env) (repoPath : Option String) (paths : List String) : Bool × List Event :=
  let ok := env.addOk paths
  (ok, [Event.add paths ok])

/-- `git_commit` (lines 139-150): `git commit -m <message>` with the default
message `"(Automated) Update mirrors"`. -/
def git_commit (env : Env) (repoPath : Option String := none)
    (message : String := "(Automated) Update mirrors") : Bool × List Event :=
  let ok := env.commitOk
  (ok, [Event.commit message ok])

/-- `create_branch` (lines 228-239): build the name
`update-mirrors/<base>/<UTC timestamp>` and `git checkout -b <name> <base>`;
`none` on failure. -/
def create_branch (env : Env) (base_branch : String) : Option String × List Event :=
  let timestamp := strftimeTimestamp env.now
  let branch_name := "update-mirrors/" ++ base_branch ++ "/" ++ timestamp
  let ok := env.createBranchOk branch_name base_branch
  if ok then (some branch_name, [Event.createBranch branch_name base_branch true])
  else (none, [Event.createBranch branch_name base_branch false])

/-- `commit_changes` (lines 349-358): create the automation branch, stage the
two tracked directories, commit; `(False, None)` as soon as a step fails. -/
def commit_changes (env : Env) (git_dir raw_files_dir base_branch : String) :
    (Bool × Option String) × List Event :=
  let br := create_branch env base_branch
  match br.1 with
  | none => ((false, none), br.2)
  | some local_br =>
    let a := git_add env none [git_dir, raw_files_dir]
    if a.1 then
      let c := git_commit env
      if c.1 then ((true, some local_br), br.2 ++ a.2 ++ c.2)
      else ((false, none), br.2 ++ a.2 ++ c.2)
    else ((false, none), br.2 ++ a.2)

/-- `process_branch` (lines 273-314): checkout the branch in the clone,
probe every required element, fail listing the missing ones if any, else
invoke the generator once over the full element list. -/
def process_branch (env : Env) (repo_url branch : String) (elements : List String)
    (clone_dest git_dir raw_files_dir : String) (exclude_aliases : List String)
    (lorry2 : Bool) : Bool × List Event :=
  let co := checkout_branch env branch (some clone_dest)
  if co.1 then
    let checkEvents := elements.map fun e => Event.element e clone_dest (element_exists env e clone_dest).1
    let missing_elements := elements.filter fun e => !(element_exists env e clone_dest).1
    if missing_elements.isEmpty then
      let g := run_bst_to_lorry env elements git_dir raw_files_dir exclude_aliases clone_dest lorry2
      (g.1, co.2 ++ checkEvents ++ g.2)
    else
      (false, co.2 ++ checkEvents)
  else (false, co.2)

/-- A repository's branch-to-elements mapping in its deterministic
(insertion) iteration order. -/
abbrev RepoConfig := List (String × List String)

/-- The `for branch, config_elements in repo_config.items()` loop of
`process_repo` (lines 333-344): abort at the first failing branch. -/
def processBranches (env : Env) (repo_url : String) (branches : RepoConfig)
    (clone_dest git_dir raw_files_dir : String) (exclude_aliases : List String)
    (lorry2 : Bool) : Bool × List Event :=
  match branches with
  | [] => (true, [])
  | (branch, config_elements) :: rest =>
    let r := process_branch env repo_url branch config_elements clone_dest git_dir
      raw_files_dir exclude_aliases lorry2
    if r.1 then
      let r2 := processBranches env repo_url rest clone_dest git_dir raw_files_dir
        exclude_aliases lorry2
      (r2.1, r.2 ++ r2.2)
    else (false, r.2)

/-- `process_repo` (lines 317-346): scoped clone of the repository URL, then
`checkout_branch(base_branch)` with no path (current working directory),
then the branch loop. -/
def process_repo (env : Env) (repo_url : String) (repo_config : RepoConfig)
    (git_dir raw_files_dir : String) (exclude_aliases : List String)
    (base_branch : String) (lorry2 : Bool) : Bool × List Event :=
  let cl := clone_repo env repo_url
  match cl.1 with
  | (false, _) => (false, cl.2)
  | (true, none) => (false, cl.2)
  | (true, some clone_dest) =>
    let co := checkout_branch env base_branch none
    if co.1 then
      let r := processBranches env repo_url repo_config clone_dest git_dir raw_files_dir
        exclude_aliases lorry2
      (r.1, cl.2 ++ co.2 ++ r.2)
    else (false, cl.2 ++ co.2)

/-- The full mirror configuration: repository URL to RepoConfig, in
deterministic (insertion) iteration order. -/
abbrev MirrorConfig := List (String × RepoConfig)

/-- The `for repo_url, repo_config in mirror_config.items()` loop of
`process_mirroring` (lines 369-379): abort at the first failing repository. -/
def processRepos (env : Env) (mirror_config : MirrorConfig)
    (git_dir raw_files_dir : String) (exclude_aliases : List String)
    (base_branch : String) (lorry2 : Bool) : Bool × List Event :=
  match mirror_config with
  | [] => (true, [])
  | (repo_url, repo_config) :: rest =>
    let r := process_repo env repo_url repo_config git_dir raw_files_dir exclude_aliases
      base_branch lorry2
    if r.1 then
      let r2 := processRepos env rest git_dir raw_files_dir exclude_aliases base_branch lorry2
      (r2.1, r.2 ++ r2.2)
    else (false, r.2)

/-- `process_mirroring` (lines 361-385): run the repository loop; on first
failure return `(False, None)`; on full success check the raw-files
directory then the git directory for uncommitted changes (short-circuit
`or`, repo path `None`); commit via `commit_changes` iff either is dirty,
else `(True, None)`. -/
def process_mirroring (env : Env) (mirror_config : MirrorConfig)
    (git_dir raw_files_dir : String) (exclude_aliases : List String)
    (base_branch : String) (lorry2 : Bool) : (Bool × Option String) × List Event :=
  let r := processRepos env mirror_config git_dir raw_files_dir exclude_aliases base_branch lorry2
  if r.1 then
    let d1 := is_dirty env none (some raw_files_dir)
    if d1.1 then
      let c := commit_changes env git_dir raw_files_dir base_branch
      (c.1, r.2 ++ d1.2 ++ c.2)
    else
      let d2 := is_dirty env none (some git_dir)
      if d2.1 then
        let c := commit_changes env git_dir raw_files_dir base_branch
        (c.1, r.2 ++ d1.2 ++ d2.2 ++ c.2)
      else ((true, none), r.2 ++ d1.2 ++ d2.2)
  else ((false, none), r.2)

/-- Split a character list at every `/`, Python `s.split("/")`. -/
def splitOnSlash : List Char → List (List Char)
  | [] => [[]]
  | c :: rest =>
    let r := splitOnSlash rest
    if c == '/' then [] :: r
    else
      match r with
      | [] => [[c]]
      | s :: ss => (c :: s) :: ss

/-- The automation-branch naming pattern
`^update-mirrors/([^/]+)/(\d+)$` of `cleanup_branches` (line 390): exactly
three `/`-separated parts, the first literally `update-mirrors`, the second
non-empty, the third a non-empty digit string. -/
def isAutomationBranch (s : String) : Bool :=
  match splitOnSlash s.data with
  | [a, b, c] =>
    a == "update-mirrors".data && !(b == []) && !(c == []) && c.all Char.isDigit
  | _ => false

/-- `cleanup_branches` (lines 388-402), as the set of branches it explicitly
deletes: `branches` models the project's branch list (the `regex=` filter of
`project.branches.list` is applied to it), `openMRSourceBranches` the source
branches of currently-open merge requests; the deletions are the
pattern-matching branches minus the pattern-matching open-MR sources. -/
def cleanup_branches (branches : List String) (openMRSourceBranches : List String) :
    List String :=
  let branch_names := branches.filter isAutomationBranch
  let open_mr_branches := openMRSourceBranches.filter isAutomationBranch
  branch_names.filter (fun b => !(open_mr_branches.contains b))

/-- Successful `git checkout -b` events in a trace: branches actually created. -/
def isCreateOk (e : Event) : Bool :=
  match e with
  | Event.createBranch _ _ true => true
  | _ => false

/-- Successful `git commit` events in a trace: commits actually made. -/
def isCommitOk (e : Event) : Bool :=
  match e with
  | Event.commit _ true => true
  | _ => false

/-- Clone invocations in a trace. -/
def isCloneEvent (e : Event) : Bool :=
  match e with
  | Event.clone _ _ => true
  | _ => false

/-- Checkout invocations in a trace. -/
def isCheckoutEvent (e : Event) : Bool :=
  match e with
  | Event.checkout _ _ _ => true
  | _ => false

/-- Generator invocations in a trace. -/
def isBstEvent (e : Event) : Bool :=
  match e with
  | Event.bst _ _ _ => true
  | _ => false

/-- Number of branches actually created during a trace. -/
def countCreateOk (tr : List Event) : Nat := tr.countP isCreateOk

/-- Number of commits actually made during a trace. -/
def countCommitOk (tr : List Event) : Nat := tr.countP isCommitOk

/-- Number of clone invocations in a trace. -/
def countClone (tr : List Event) : Nat := tr.countP isCloneEvent

/-- Number of checkout invocations in a trace. -/
def countCheckout (tr : List Event) : Nat := tr.countP isCheckoutEvent

/-- Number of generator invocations in a trace. -/
def countBst (tr : List Event) : Nat := tr.countP isBstEvent

/-- The mirroring pipeline proper (branch level) performs no branch creation
and no commit: those happen only in `commit_changes`. -/
theorem process_branch_no_mutation (env : Env) (u b : String) (els : List String)
    (dest gd rfd : String) (ex : List String) (l2 : Bool) :
    ∀ e ∈ (process_branch env u b els dest gd rfd ex l2).2,
      isCreateOk e = false ∧ isCommitOk e = false := by
  intro e he
  dsimp only [process_branch, checkout_branch, element_exists, run_bst_to_lorry] at he
  split at he
  · split at he
    · simp only [List.mem_append, List.mem_singleton, List.mem_map] at he
      rcases he with (he | ⟨x, _, he⟩) | he <;> subst he <;> exact ⟨rfl, rfl⟩
    · simp only [List.mem_append, List.mem_singleton, List.mem_map] at he
      rcases he with he | ⟨x, _, he⟩ <;> subst he <;> exact ⟨rfl, rfl⟩
  · simp only [List.mem_singleton] at he
    subst he
    exact ⟨rfl, rfl⟩

/-- The branch loop of `process_repo` performs no branch creation and no
commit. -/
theorem processBranches_no_mutation (env : Env) (u : String) (branches : RepoConfig)
    (dest gd rfd : String) (ex : List String) (l2 : Bool) :
    ∀ e ∈ (processBranches env u branches dest gd rfd ex l2).2,
      isCreateOk e = false ∧ isCommitOk e = false := by
  induction branches with
  | nil => intro e he; simp [processBranches] at he
  | cons hd tl ih =>
    obtain ⟨b, els⟩ := hd
    intro e he
    dsimp only [processBranches] at he
    split at he
    · simp only [List.mem_append] at he
      rcases he with he | he
      · exact process_branch_no_mutation env u b els dest gd rfd ex l2 e he
      · exact ih e he
    · exact process_branch_no_mutation env u b els dest gd rfd ex l2 e he

/-- `process_repo` performs no branch creation and no commit. -/
theorem process_repo_no_mutation (env : Env) (u : String) (rc : RepoConfig)
    (gd rfd : String) (ex : List String) (base : String) (l2 : Bool) :
    ∀ e ∈ (process_repo env u rc gd rfd ex base l2).2,
      isCreateOk e = false ∧ isCommitOk e = false := by
  intro e he
  cases hcl : env.cloneOk u with
  | false =>
    simp [process_repo, clone_repo, hcl] at he
    simp [he, isCreateOk, isCommitOk]
  | true =>
    cases hco : env.checkoutOk base none with
    | false =>
      simp [process_repo, clone_repo, checkout_branch, hcl, hco] at he
      rcases he with he | he <;> simp [he, isCreateOk, isCommitOk]
    | true =>
      simp [process_repo, clone_repo, checkout_branch, hcl, hco] at he
      rcases he with he | he | he
      · simp [he, isCreateOk, isCommitOk]
      · simp [he, isCreateOk, isCommitOk]
      · exact processBranches_no_mutation env u rc _ gd rfd ex l2 e he

/-- The repository loop of `process_mirroring` performs no branch creation
and no commit. -/
theorem processRepos_no_mutation (env : Env) (cfg : MirrorConfig)
    (gd rfd : String) (ex : List String) (base : String) (l2 : Bool) :
    ∀ e ∈ (processRepos env cfg gd rfd ex base l2).2,
      isCreateOk e = false ∧ isCommitOk e = false := by
  induction cfg with
  | nil => intro e he; simp [processRepos] at he
  | cons hd tl ih =>
    obtain ⟨u, rc⟩ := hd
    intro e he
    dsimp only [processRepos] at he
    split at he
    · simp only [List.mem_append] at he
      rcases he with he | he
      · exact process_repo_no_mutation env u rc gd rfd ex base l2 e he
      · exact ih e he
    · exact process_repo_no_mutation env u rc gd rfd ex base l2 e he

/-- A trace none of whose events is a mutation counts zero created branches. -/
theorem countCreateOk_eq_zero (tr : List Event)
    (h : ∀ e ∈ tr, isCreateOk e = false ∧ isCommitOk e = false) :
    countCreateOk tr = 0 :=
  List.countP_eq_zero.mpr (fun e he => by simp [(h e he).1])

/-- A trace none of whose events is a mutation counts zero commits. -/
theorem countCommitOk_eq_zero (tr : List Event)
    (h : ∀ e ∈ tr, isCreateOk e = false ∧ isCommitOk e = false) :
    countCommitOk tr = 0 :=
  List.countP_eq_zero.mpr (fun e he => by simp [(h e he).2])

/-- When every checkout, element probe and generator run succeeds,
`process_branch` reports success. -/
theorem process_branch_success (env : Env) (u b : String) (els : List String)
    (dest gd rfd : String) (ex : List String) (l2 : Bool)
    (hco : ∀ br p, env.checkoutOk br p = true)
    (helem : ∀ el p, env.elementOk el p = true)
    (hbst : ∀ c w, env.bstOk c w = true) :
    (process_branch env u b els dest gd rfd ex l2).1 = true := by
  simp [process_branch, checkout_branch, element_exists, run_bst_to_lorry, hco, helem, hbst]

/-- When every checkout, element probe and generator run succeeds, the
branch loop reports success. -/
theorem processBranches_success (env : Env) (u : String) (branches : RepoConfig)
    (dest gd rfd : String) (ex : List String) (l2 : Bool)
    (hco : ∀ br p, env.checkoutOk br p = true)
    (helem : ∀ el p, env.elementOk el p = true)
    (hbst : ∀ c w, env.bstOk c w = true) :
    (processBranches env u branches dest gd rfd ex l2).1 = true := by
  induction branches with
  | nil => rfl
  | cons hd tl ih =>
    obtain ⟨b, els⟩ := hd
    simp [processBranches, process_branch_success env u b els dest gd rfd ex l2 hco helem hbst,
      ih]

/-- When every clone, checkout, element probe and generator run succeeds,
`process_repo` reports success. -/
theorem process_repo_success (env : Env) (u : String) (rc : RepoConfig)
    (gd rfd : String) (ex : List String) (base : String) (l2 : Bool)
    (hclone : ∀ url, env.cloneOk url = true)
    (hco : ∀ br p, env.checkoutOk br p = true)
    (helem : ∀ el p, env.elementOk el p = true)
    (hbst : ∀ c w, env.bstOk c w = true) :
    (process_repo env u rc gd rfd ex base l2).1 = true := by
  simp [process_repo, clone_repo, checkout_branch, hclone, hco,
    processBranches_success env u rc (env.tmpdir u ++ "/" ++ repoNameFromUrl u) gd rfd ex l2
      hco helem hbst]

/-- When every clone, checkout, element probe and generator run succeeds,
the repository loop reports success. -/
theorem processRepos_success (env : Env) (cfg : MirrorConfig)
    (gd rfd : String) (ex : List String) (base : String) (l2 : Bool)
    (hclone : ∀ url, env.cloneOk url = true)
    (hco : ∀ br p, env.checkoutOk br p = true)
    (helem : ∀ el p, env.elementOk el p = true)
    (hbst : ∀ c w, env.bstOk c w = true) :
    (processRepos env cfg gd rfd ex base l2).1 = true := by
  induction cfg with
  | nil => rfl
  | cons hd tl ih =>
    obtain ⟨u, rc⟩ := hd
    simp [processRepos, process_repo_success env u rc gd rfd ex base l2 hclone hco helem hbst,
      ih]

/-- The repository loop distributes over list append as long as the first
part fully succeeds. -/
theorem processRepos_append (env : Env) (pre rest : MirrorConfig)
    (gd rfd : String) (ex : List String) (base : String) (l2 : Bool)
    (hpre : (processRepos env pre gd rfd ex base l2).1 = true) :
    processRepos env (pre ++ rest) gd rfd ex base l2
      = ((processRepos env rest gd rfd ex base l2).1,
        (processRepos env pre gd rfd ex base l2).2
          ++ (processRepos env rest gd rfd ex base l2).2) := by
  induction pre with
  | nil => simp [processRepos]
  | cons hd tl ih =>
    obtain ⟨u, rc⟩ := hd
    cases h : (process_repo env u rc gd rfd ex base l2).1 with
    | false => rw [processRepos] at hpre; simp [h] at hpre
    | true =>
      have htl : (processRepos env tl gd rfd ex base l2).1 = true := by
        rw [processRepos] at hpre
        simpa [h] using hpre
      simp [processRepos, h, ih htl, List.append_assoc]

/-- A dirtiness probe performs no branch creation and no commit. -/
theorem is_dirty_no_mutation (env : Env) (p s : Option String) :
    ∀ e ∈ (is_dirty env p s).2, isCreateOk e = false ∧ isCommitOk e = false := by
  intro e he
  cases h : env.gitStatus p s <;> simp [is_dirty, h] at he <;> simp [he, isCreateOk, isCommitOk]

/-- Created-branch counting distributes over trace concatenation. -/
theorem countCreateOk_append (a b : List Event) :
    countCreateOk (a ++ b) = countCreateOk a + countCreateOk b :=
  List.countP_append ..

/-- Commit counting distributes over trace concatenation. -/
theorem countCommitOk_append (a b : List Event) :
    countCommitOk (a ++ b) = countCommitOk a + countCommitOk b :=
  List.countP_append ..

/-- The trace of a fully successful `commit_changes` creates one branch. -/
theorem countCreateOk_commit_all (n b m : String) (ps : List String) :
    countCreateOk [Event.createBranch n b true, Event.add ps true, Event.commit m true] = 1 := by
  simp [countCreateOk, List.countP_cons, isCreateOk]

/-- The trace of a fully successful `commit_changes` makes one commit. -/
theorem countCommitOk_commit_all (n b m : String) (ps : List String) :
    countCommitOk [Event.createBranch n b true, Event.add ps true, Event.commit m true] = 1 := by
  simp [countCommitOk, List.countP_cons, isCommitOk]

/-- When branch creation, staging and committing all succeed,
`commit_changes` returns the automation branch name and its trace is the
three successful mutations in order. -/
theorem commit_changes_all_ok (env : Env) (gd rfd base : String)
    (hcb : ∀ n b, env.createBranchOk n b = true)
    (hadd : ∀ ps, env.addOk ps = true)
    (hcommit : env.commitOk = true) :
    commit_changes env gd rfd base
      = ((true, some ("update-mirrors/" ++ base ++ "/" ++ strftimeTimestamp env.now)),
        [Event.createBranch ("update-mirrors/" ++ base ++ "/" ++ strftimeTimestamp env.now)
            base true,
          Event.add [gd, rfd] true,
          Event.commit "(Automated) Update mirrors" true]) := by
  simp [commit_changes, create_branch, git_add, git_commit, hcb, hadd, hcommit]

/-- C1: for every MirrorConfig in which every clone, branch checkout,
element-existence check and generator invocation succeeds, and with at least
one of the two tracked directories dirty after processing, the run succeeds
and produces exactly one new commit on exactly one newly created branch
named `update-mirrors/<base-branch>/<timestamp>`, where the timestamp is the
UTC now rendered by strftime `%Y%m%d%H%M%S`, and that branch is created
forking from the supplied base branch. -/
theorem process_mirroring_single_branch_commit
    (env : Env) (cfg : MirrorConfig) (gd rfd : String) (ex : List String)
    (base : String) (l2 : Bool)
    (hclone : ∀ url, env.cloneOk url = true)
    (hco : ∀ br p, env.checkoutOk br p = true)
    (helem : ∀ el p, env.elementOk el p = true)
    (hbst : ∀ c w, env.bstOk c w = true)
    (hcb : ∀ n b, env.createBranchOk n b = true)
    (hadd : ∀ ps, env.addOk ps = true)
    (hcommit : env.commitOk = true)
    (hdirty : (is_dirty env none (some rfd)).1 = true
      ∨ (is_dirty env none (some gd)).1 = true) :
    (process_mirroring env cfg gd rfd ex base l2).1
        = (true, some ("update-mirrors/" ++ base ++ "/" ++ strftimeTimestamp env.now))
      ∧ countCreateOk (process_mirroring env cfg gd rfd ex base l2).2 = 1
      ∧ countCommitOk (process_mirroring env cfg gd rfd ex base l2).2 = 1
      ∧ Event.createBranch ("update-mirrors/" ++ base ++ "/" ++ strftimeTimestamp env.now)
          base true ∈ (process_mirroring env cfg gd rfd ex base l2).2 := by
  have hr := processRepos_success env cfg gd rfd ex base l2 hclone hco helem hbst
  have hcc := commit_changes_all_ok env gd rfd base hcb hadd hcommit
  have hr0c := countCreateOk_eq_zero _ (processRepos_no_mutation env cfg gd rfd ex base l2)
  have hr0m := countCommitOk_eq_zero _ (processRepos_no_mutation env cfg gd rfd ex base l2)
  have hd10c := countCreateOk_eq_zero _ (is_dirty_no_mutation env none (some rfd))
  have hd10m := countCommitOk_eq_zero _ (is_dirty_no_mutation env none (some rfd))
  have hd20c := countCreateOk_eq_zero _ (is_dirty_no_mutation env none (some gd))
  have hd20m := countCommitOk_eq_zero _ (is_dirty_no_mutation env none (some gd))
  cases hd1 : (is_dirty env none (some rfd)).1 with
  | true =>
    have heq : process_mirroring env cfg gd rfd ex base l2
        = ((commit_changes env gd rfd base).1,
          (processRepos env cfg gd rfd ex base l2).2 ++ (is_dirty env none (some rfd)).2
            ++ (commit_changes env gd rfd base).2) := by
      simp [process_mirroring, hr, hd1]
    refine ⟨?_, ?_, ?_, ?_⟩
    · rw [heq]; simp [hcc]
    · rw [heq, hcc]
      simp [countCreateOk_append, hr0c, hd10c, countCreateOk_commit_all]
    · rw [heq, hcc]
      simp [countCommitOk_append, hr0m, hd10m, countCommitOk_commit_all]
    · rw [heq, hcc]; simp
  | false =>
    have hd2 : (is_dirty env none (some gd)).1 = true := by
      rcases hdirty with h | h
      · rw [hd1] at h; exact absurd h (by simp)
      · exact h
    have heq : process_mirroring env cfg gd rfd ex base l2
        = ((commit_changes env gd rfd base).1,
          (processRepos env cfg gd rfd ex base l2).2 ++ (is_dirty env none (some rfd)).2
            ++ (is_dirty env none (some gd)).2 ++ (commit_changes env gd rfd base).2) := by
      simp [process_mirroring, hr, hd1, hd2]
    refine ⟨?_, ?_, ?_, ?_⟩
    · rw [heq]; simp [hcc]
    · rw [heq, hcc]
      simp [countCreateOk_append, hr0c, hd10c, hd20c, countCreateOk_commit_all]
    · rw [heq, hcc]
      simp [countCommitOk_append, hr0m, hd10m, hd20m, countCommitOk_commit_all]
    · rw [heq, hcc]; simp

/-- An environment in which every external command succeeds and the tracked
tree is dirty (`git status` reports a modified file). -/
def envAllOk : Env where
  cloneOk := fun _ => true
  tmpdir := fun _ => "/tmp/t"
  checkoutOk := fun _ _ => true
  elementOk := fun _ _ => true
  bstOk := fun _ _ => true
  gitStatus := fun _ _ => some " M files/x"
  createBranchOk := fun _ _ => true
  addOk := fun _ => true
  commitOk := true
  now := ⟨2024, 1, 2, 3, 4, 5⟩

/-- Witness for C1 at a concrete one-repository configuration. -/
theorem process_mirroring_single_branch_commit_instance :
    (process_mirroring envAllOk [("https://h/r.git", [("main", ["base.bst"])])]
          "gits" "files" [] "main" false).1
        = (true, some ("update-mirrors/" ++ "main" ++ "/" ++ strftimeTimestamp envAllOk.now))
      ∧ countCreateOk (process_mirroring envAllOk [("https://h/r.git", [("main", ["base.bst"])])]
          "gits" "files" [] "main" false).2 = 1
      ∧ countCommitOk (process_mirroring envAllOk [("https://h/r.git", [("main", ["base.bst"])])]
          "gits" "files" [] "main" false).2 = 1 := by
  have h := process_mirroring_single_branch_commit envAllOk
    [("https://h/r.git", [("main", ["base.bst"])])] "gits" "files" [] "main" false
    (fun _ => rfl) (fun _ _ => rfl) (fun _ _ => rfl) (fun _ _ => rfl) (fun _ _ => rfl)
    (fun _ => rfl) rfl (Or.inl (by decide))
  exact ⟨h.1, h.2.1, h.2.2.1⟩

/-- C2: after all repositories have been processed successfully,
`process_mirroring` probes the raw-files directory and then the git
directory for uncommitted changes; if neither is dirty it returns success
with no branch name, creating no branch and no commit; it delegates to
`commit_changes` exactly when at least one of the two tracked directories is
dirty. -/
theorem process_mirroring_commit_gate
    (env : Env) (cfg : MirrorConfig) (gd rfd : String) (ex : List String)
    (base : String) (l2 : Bool)
    (hrepos : (processRepos env cfg gd rfd ex base l2).1 = true) :
    ((is_dirty env none (some rfd)).1 = false → (is_dirty env none (some gd)).1 = false →
      process_mirroring env cfg gd rfd ex base l2
          = ((true, none), (processRepos env cfg gd rfd ex base l2).2
            ++ (is_dirty env none (some rfd)).2 ++ (is_dirty env none (some gd)).2)
        ∧ countCreateOk (process_mirroring env cfg gd rfd ex base l2).2 = 0
        ∧ countCommitOk (process_mirroring env cfg gd rfd ex base l2).2 = 0)
    ∧ (((is_dirty env none (some rfd)).1 = true ∨ (is_dirty env none (some gd)).1 = true) →
      (process_mirroring env cfg gd rfd ex base l2).1 = (commit_changes env gd rfd base).1
        ∧ ∃ pre, (process_mirroring env cfg gd rfd ex base l2).2
            = pre ++ (commit_changes env gd rfd base).2) := by
  constructor
  · intro h1 h2
    have heq : process_mirroring env cfg gd rfd ex base l2
        = ((true, none), (processRepos env cfg gd rfd ex base l2).2
          ++ (is_dirty env none (some rfd)).2 ++ (is_dirty env none (some gd)).2) := by
      simp [process_mirroring, hrepos, h1, h2]
    refine ⟨heq, ?_, ?_⟩ <;> rw [heq] <;>
      simp [countCreateOk_append, countCommitOk_append,
        countCreateOk_eq_zero _ (processRepos_no_mutation env cfg gd rfd ex base l2),
        countCommitOk_eq_zero _ (processRepos_no_mutation env cfg gd rfd ex base l2),
        countCreateOk_eq_zero _ (is_dirty_no_mutation env none (some rfd)),
        countCommitOk_eq_zero _ (is_dirty_no_mutation env none (some rfd)),
        countCreateOk_eq_zero _ (is_dirty_no_mutation env none (some gd)),
        countCommitOk_eq_zero _ (is_dirty_no_mutation env none (some gd))]
  · intro hd
    cases hd1 : (is_dirty env none (some rfd)).1 with
    | true =>
      have heq : process_mirroring env cfg gd rfd ex base l2
          = ((commit_changes env gd rfd base).1,
            (processRepos env cfg gd rfd ex base l2).2 ++ (is_dirty env none (some rfd)).2
              ++ (commit_changes env gd rfd base).2) := by
        simp [process_mirroring, hrepos, hd1]
      refine ⟨by rw [heq], ?_⟩
      exact ⟨(processRepos env cfg gd rfd ex base l2).2 ++ (is_dirty env none (some rfd)).2,
        by rw [heq]⟩
    | false =>
      have hd2 : (is_dirty env none (some gd)).1 = true := by
        rcases hd with h | h
        · rw [hd1] at h; exact absurd h (by simp)
        · exact h
      have heq : process_mirroring env cfg gd rfd ex base l2
          = ((commit_changes env gd rfd base).1,
            (processRepos env cfg gd rfd ex base l2).2 ++ (is_dirty env none (some rfd)).2
              ++ (is_dirty env none (some gd)).2 ++ (commit_changes env gd rfd base).2) := by
        simp [process_mirroring, hrepos, hd1, hd2]
      refine ⟨by rw [heq], ?_⟩
      exact ⟨(processRepos env cfg gd rfd ex base l2).2 ++ (is_dirty env none (some rfd)).2
        ++ (is_dirty env none (some gd)).2, by rw [heq]⟩

/-- An environment in which every external command succeeds and the tracked
tree is clean (`git status` prints nothing). -/
def envCleanOk : Env where
  cloneOk := fun _ => true
  tmpdir := fun _ => "/tmp/t"
  checkoutOk := fun _ _ => true
  elementOk := fun _ _ => true
  bstOk := fun _ _ => true
  gitStatus := fun _ _ => some ""
  createBranchOk := fun _ _ => true
  addOk := fun _ => true
  commitOk := true
  now := ⟨2024, 1, 2, 3, 4, 5⟩

/-- Witness for C2 at a concrete clean-tree run. -/
theorem process_mirroring_commit_gate_instance :
    process_mirroring envCleanOk [("https://h/r.git", [("main", ["base.bst"])])]
        "gits" "files" [] "main" false
      = ((true, none),
        (processRepos envCleanOk [("https://h/r.git", [("main", ["base.bst"])])]
            "gits" "files" [] "main" false).2
          ++ (is_dirty envCleanOk none (some "files")).2
          ++ (is_dirty envCleanOk none (some "gits")).2) :=
  ((process_mirroring_commit_gate envCleanOk [("https://h/r.git", [("main", ["base.bst"])])]
      "gits" "files" [] "main" false (by decide)).1 (by decide) (by decide)).1

/-- C3: if every repository before some position processes successfully and
the repository at that position fails, `process_mirroring` returns failure
with no branch name, the trace stops at the failing repository (repositories
after it contribute nothing, whatever they are), and no branch is created
and no commit is made. -/
theorem process_mirroring_abort_on_repo_failure
    (env : Env) (pre post : MirrorConfig) (url : String) (rc : RepoConfig)
    (gd rfd : String) (ex : List String) (base : String) (l2 : Bool)
    (hpre : (processRepos env pre gd rfd ex base l2).1 = true)
    (hfail : (process_repo env url rc gd rfd ex base l2).1 = false) :
    process_mirroring env (pre ++ (url, rc) :: post) gd rfd ex base l2
        = ((false, none),
          (processRepos env pre gd rfd ex base l2).2
            ++ (process_repo env url rc gd rfd ex base l2).2)
      ∧ countCreateOk (process_mirroring env (pre ++ (url, rc) :: post) gd rfd ex base l2).2 = 0
      ∧ countCommitOk (process_mirroring env (pre ++ (url, rc) :: post) gd rfd ex base l2).2
          = 0 := by
  have hcons : processRepos env ((url, rc) :: post) gd rfd ex base l2
      = (false, (process_repo env url rc gd rfd ex base l2).2) := by
    simp [processRepos, hfail]
  have happ := processRepos_append env pre ((url, rc) :: post) gd rfd ex base l2 hpre
  rw [hcons] at happ
  have heq : process_mirroring env (pre ++ (url, rc) :: post) gd rfd ex base l2
      = ((false, none),
        (processRepos env pre gd rfd ex base l2).2
          ++ (process_repo env url rc gd rfd ex base l2).2) := by
    simp [process_mirroring, happ]
  refine ⟨heq, ?_, ?_⟩ <;> rw [heq] <;>
    simp [countCreateOk_append, countCommitOk_append,
      countCreateOk_eq_zero _ (processRepos_no_mutation env pre gd rfd ex base l2),
      countCommitOk_eq_zero _ (processRepos_no_mutation env pre gd rfd ex base l2),
      countCreateOk_eq_zero _ (process_repo_no_mutation env url rc gd rfd ex base l2),
      countCommitOk_eq_zero _ (process_repo_no_mutation env url rc gd rfd ex base l2)]

/-- An environment in which cloning one specific repository fails and every
other external command succeeds. -/
def envCloneFail : Env where
  cloneOk := fun u => !(u == "https://h/bad.git")
  tmpdir := fun _ => "/tmp/t"
  checkoutOk := fun _ _ => true
  elementOk := fun _ _ => true
  bstOk := fun _ _ => true
  gitStatus := fun _ _ => some " M files/x"
  createBranchOk := fun _ _ => true
  addOk := fun _ => true
  commitOk := true
  now := ⟨2024, 1, 2, 3, 4, 5⟩

/-- Witness for C3: a failing clone in the middle of the configuration
aborts the run with no commit. -/
theorem process_mirroring_abort_on_repo_failure_instance :
    process_mirroring envCloneFail
        ([("https://h/ok.git", [("main", ["e.bst"])])]
          ++ ("https://h/bad.git", [("main", ["e.bst"])])
            :: [("https://h/after.git", [("main", ["e.bst"])])])
        "gits" "files" [] "main" false
      = ((false, none),
        (processRepos envCloneFail [("https://h/ok.git", [("main", ["e.bst"])])]
            "gits" "files" [] "main" false).2
          ++ (process_repo envCloneFail "https://h/bad.git" [("main", ["e.bst"])]
            "gits" "files" [] "main" false).2) :=
  (process_mirroring_abort_on_repo_failure envCloneFail
    [("https://h/ok.git", [("main", ["e.bst"])])]
    [("https://h/after.git", [("main", ["e.bst"])])]
    "https://h/bad.git" [("main", ["e.bst"])] "gits" "files" [] "main" false
    (by decide) (by decide)).1

/-- An environment in which branch creation succeeds but `git add` fails. -/
def envAddFail : Env where
  cloneOk := fun _ => true
  tmpdir := fun _ => "/tmp/t"
  checkoutOk := fun _ _ => true
  elementOk := fun _ _ => true
  bstOk := fun _ _ => true
  gitStatus := fun _ _ => some " M files/x"
  createBranchOk := fun _ _ => true
  addOk := fun _ => false
  commitOk := true
  now := ⟨2024, 1, 2, 3, 4, 5⟩

/-- Counterexample to C4 as stated: when staging fails after branch creation
succeeded, `commit_changes` returns failure, yet the branch-creation
mutation did happen and remains observable afterwards — nothing rolls the
new branch back, so the step is not atomic in effect. -/
theorem commit_changes_not_atomic :
    (commit_changes envAddFail "gits" "files" "main").1 = (false, none)
    ∧ Event.createBranch "update-mirrors/main/20240102030405" "main" true
        ∈ (commit_changes envAddFail "gits" "files" "main").2 := by
  decide

/-- C4 (amended): `commit_changes` never partially commits: on success it
returns the new automation-branch name, having created exactly that branch,
staged exactly the two tracked directories and made the commit; on failure
at any step it returns `(false, none)` and no commit has been made — but
mutations already performed before the failing step (the created branch,
the staged changes) are not rolled back and may remain observable. -/
theorem commit_changes_no_partial_commit (env : Env) (gd rfd base : String) :
    ((commit_changes env gd rfd base).1.1 = true →
      commit_changes env gd rfd base
        = ((true, some ("update-mirrors/" ++ base ++ "/" ++ strftimeTimestamp env.now)),
          [Event.createBranch ("update-mirrors/" ++ base ++ "/" ++ strftimeTimestamp env.now)
              base true,
            Event.add [gd, rfd] true,
            Event.commit "(Automated) Update mirrors" true]))
    ∧ ((commit_changes env gd rfd base).1.1 = false →
      (commit_changes env gd rfd base).1.2 = none
        ∧ countCommitOk (commit_changes env gd rfd base).2 = 0) := by
  cases hcb : env.createBranchOk ("update-mirrors/" ++ base ++ "/" ++ strftimeTimestamp env.now)
      base with
  | false =>
    have heq : commit_changes env gd rfd base
        = ((false, none),
          [Event.createBranch ("update-mirrors/" ++ base ++ "/" ++ strftimeTimestamp env.now)
            base false]) := by
      simp [commit_changes, create_branch, hcb]
    refine ⟨?_, ?_⟩ <;> rw [heq] <;>
      simp [countCommitOk, List.countP_cons, isCommitOk]
  | true =>
    cases hadd : env.addOk [gd, rfd] with
    | false =>
      have heq : commit_changes env gd rfd base
          = ((false, none),
            [Event.createBranch ("update-mirrors/" ++ base ++ "/" ++ strftimeTimestamp env.now)
                base true,
              Event.add [gd, rfd] false]) := by
        simp [commit_changes, create_branch, git_add, hcb, hadd]
      refine ⟨?_, ?_⟩ <;> rw [heq] <;>
        simp [countCommitOk, List.countP_cons, isCommitOk]
    | true =>
      cases hc : env.commitOk with
      | false =>
        have heq : commit_changes env gd rfd base
            = ((false, none),
              [Event.createBranch
                  ("update-mirrors/" ++ base ++ "/" ++ strftimeTimestamp env.now) base true,
                Event.add [gd, rfd] true,
                Event.commit "(Automated) Update mirrors" false]) := by
          simp [commit_changes, create_branch, git_add, git_commit, hcb, hadd, hc]
        refine ⟨?_, ?_⟩ <;> rw [heq] <;>
          simp [countCommitOk, List.countP_cons, isCommitOk]
      | true =>
        have heq : commit_changes env gd rfd base
            = ((true, some ("update-mirrors/" ++ base ++ "/" ++ strftimeTimestamp env.now)),
              [Event.createBranch
                  ("update-mirrors/" ++ base ++ "/" ++ strftimeTimestamp env.now) base true,
                Event.add [gd, rfd] true,
                Event.commit "(Automated) Update mirrors" true]) := by
          simp [commit_changes, create_branch, git_add, git_commit, hcb, hadd, hc]
        refine ⟨?_, ?_⟩ <;> rw [heq] <;> simp

/-- Witness for the amended C4: a concrete failing run returns
`(false, none)` and makes no commit. -/
theorem commit_changes_no_partial_commit_instance :
    (commit_changes envAddFail "gits" "files" "main").1.2 = none
    ∧ countCommitOk (commit_changes envAddFail "gits" "files" "main").2 = 0 :=
  (commit_changes_no_partial_commit envAddFail "gits" "files" "main").2 (by decide)

/-- Counterexample to C5 as stated: in a concrete fully successful repository
run the base branch (`main`) is checked out in the process working directory
(`repoPath = none`), and no checkout of the base branch ever happens inside
the freshly acquired clone (`/tmp/t/r`). -/
theorem process_repo_base_checkout_not_in_clone :
    Event.checkout "main" none true
        ∈ (process_repo envAllOk "https://h/r.git" [("dev", ["e.bst"])]
          "gits" "files" [] "main" false).2
    ∧ Event.checkout "main" (some "/tmp/t/r") true
        ∉ (process_repo envAllOk "https://h/r.git" [("dev", ["e.bst"])]
          "gits" "files" [] "main" false).2
    ∧ Event.checkout "main" (some "/tmp/t/r") false
        ∉ (process_repo envAllOk "https://h/r.git" [("dev", ["e.bst"])]
          "gits" "files" [] "main" false).2 := by
  decide

/-- C5 (amended): for every repository whose clone succeeds, `process_repo`
immediately runs the base-branch checkout in the process current working
directory (the target repository, `repoPath = none`) — not in the clone —
before iterating the branch mapping, and fails the repository if that
checkout fails. -/
theorem process_repo_base_checkout_in_cwd (env : Env) (url : String) (rc : RepoConfig)
    (gd rfd : String) (ex : List String) (base : String) (l2 : Bool)
    (hcl : env.cloneOk url = true) :
    (∃ rest, (process_repo env url rc gd rfd ex base l2).2
      = Event.clone url true
          :: Event.checkout base none (env.checkoutOk base none) :: rest)
    ∧ (env.checkoutOk base none = false →
      process_repo env url rc gd rfd ex base l2
        = (false, [Event.clone url true, Event.checkout base none false])) := by
  constructor
  · cases hco : env.checkoutOk base none with
    | true =>
      exact ⟨(processBranches env url rc (env.tmpdir url ++ "/" ++ repoNameFromUrl url)
          gd rfd ex l2).2,
        by simp [process_repo, clone_repo, checkout_branch, hcl, hco]⟩
    | false =>
      exact ⟨[], by simp [process_repo, clone_repo, checkout_branch, hcl, hco]⟩
  · intro hco
    simp [process_repo, clone_repo, checkout_branch, hcl, hco]

/-- Witness for the amended C5 at a concrete repository. -/
theorem process_repo_base_checkout_in_cwd_instance :
    Event.checkout "main" none true
      ∈ (process_repo envAllOk "https://h/r.git" [("dev", ["e.bst"])]
        "gits" "files" [] "main" false).2 := by
  obtain ⟨rest, hr⟩ := (process_repo_base_checkout_in_cwd envAllOk "https://h/r.git"
    [("dev", ["e.bst"])] "gits" "files" [] "main" false rfl).1
  rw [hr]
  exact List.mem_cons_of_mem _ (List.mem_cons_self _ _)

/-- C6: once the branch checkout succeeded, `process_branch` probes every
required element (so the full missing subset is computed); if any element is
missing it fails without a single generator invocation, and if none is
missing it invokes the generator exactly once, over the full element list. -/
theorem process_branch_all_or_nothing (env : Env) (u b : String) (els : List String)
    (dest gd rfd : String) (ex : List String) (l2 : Bool)
    (hco : env.checkoutOk b (some dest) = true) :
    (els.filter (fun el => !(element_exists env el dest).1) ≠ [] →
      (process_branch env u b els dest gd rfd ex l2).1 = false
        ∧ countBst (process_branch env u b els dest gd rfd ex l2).2 = 0
        ∧ ∀ el ∈ els, Event.element el dest (element_exists env el dest).1
            ∈ (process_branch env u b els dest gd rfd ex l2).2)
    ∧ (els.filter (fun el => !(element_exists env el dest).1) = [] →
      process_branch env u b els dest gd rfd ex l2
        = (env.bstOk (bstToLorryCommand els gd rfd ex l2) dest,
          Event.checkout b (some dest) true
            :: (els.map fun el => Event.element el dest (element_exists env el dest).1)
            ++ [Event.bst (bstToLorryCommand els gd rfd ex l2) dest
              (env.bstOk (bstToLorryCommand els gd rfd ex l2) dest)])) := by
  constructor
  · intro hmiss
    have hne : (els.filter (fun el => !(element_exists env el dest).1)).isEmpty = false := by
      cases h : (els.filter (fun el => !(element_exists env el dest).1)).isEmpty with
      | false => rfl
      | true => exact absurd (List.isEmpty_iff.mp h) hmiss
    have heq : process_branch env u b els dest gd rfd ex l2
        = (false, Event.checkout b (some dest) true
          :: els.map fun el => Event.element el dest (element_exists env el dest).1) := by
      simp [process_branch, checkout_branch, hco, hne]
    refine ⟨by rw [heq], ?_, ?_⟩
    · rw [heq]
      refine List.countP_eq_zero.mpr ?_
      intro e he
      simp only [List.mem_cons, List.mem_map] at he
      rcases he with he | ⟨x, _, he⟩ <;> subst he <;> simp [isBstEvent]
    · intro el hel
      rw [heq]
      simp only [List.mem_cons, List.mem_map]
      exact Or.inr ⟨el, hel, rfl⟩
  · intro hok
    have he : (els.filter (fun el => !(element_exists env el dest).1)).isEmpty = true :=
      List.isEmpty_iff.mpr hok
    simp [process_branch, checkout_branch, run_bst_to_lorry, hco, he]

/-- An environment in which one specific element does not exist and every
other external command succeeds. -/
def envElemFail : Env where
  cloneOk := fun _ => true
  tmpdir := fun _ => "/tmp/t"
  checkoutOk := fun _ _ => true
  elementOk := fun el _ => !(el == "missing.bst")
  bstOk := fun _ _ => true
  gitStatus := fun _ _ => some " M files/x"
  createBranchOk := fun _ _ => true
  addOk := fun _ => true
  commitOk := true
  now := ⟨2024, 1, 2, 3, 4, 5⟩

/-- Witness for C6: with a missing element the branch fails, the generator is
never invoked, and both elements were probed. -/
theorem process_branch_all_or_nothing_instance :
    (process_branch envElemFail "https://h/r.git" "dev" ["ok.bst", "missing.bst"]
        "/tmp/t/r" "gits" "files" [] false).1 = false
    ∧ countBst (process_branch envElemFail "https://h/r.git" "dev" ["ok.bst", "missing.bst"]
        "/tmp/t/r" "gits" "files" [] false).2 = 0 := by
  have h := (process_branch_all_or_nothing envElemFail "https://h/r.git" "dev"
    ["ok.bst", "missing.bst"] "/tmp/t/r" "gits" "files" [] false rfl).1 (by decide)
  exact ⟨h.1, h.2.1⟩

/-- Counterexample to C7 as stated: with the format parameter at its default
value (`lorry2 = false`, no format selection requested) the built argument
list does contain the format flag `--refspecs`; the flag is omitted exactly
when the `lorry2` format is requested. -/
theorem bstToLorryCommand_refspecs_at_default :
    "--refspecs" ∈ bstToLorryCommand ["e.bst"] "gits" "files" ["fdsdk_git"] false
    ∧ "--refspecs" ∉ bstToLorryCommand ["e.bst"] "gits" "files" ["fdsdk_git"] true := by
  decide

/-- Each excluded alias contributes exactly one `--exclude-alias` flag. -/
theorem count_exclude_alias_pairs (ex : List String) (h : "--exclude-alias" ∉ ex) :
    ((ex.map fun a => ["--exclude-alias", a]).flatten).count "--exclude-alias"
      = ex.length := by
  induction ex with
  | nil => rfl
  | cons a tl ih =>
    simp only [List.mem_cons, not_or] at h
    simp [List.count_append, List.count_cons, ih h.2, h.1]

/-- C7 (amended): the built argument list names the elements, the two output
directories (each right after its flag), and one `--exclude-alias` flag per
excluded alias; the format flag `--refspecs` is present exactly when the
`lorry2` format is NOT requested — in particular it is present in the
default configuration, and absent when `lorry2` is selected. -/
theorem bstToLorryCommand_shape (els : List String) (gd rfd : String) (ex : List String)
    (l2 : Bool)
    (h1 : "--refspecs" ∉ els) (h2 : "--refspecs" ∉ ex)
    (h3 : gd ≠ "--refspecs") (h4 : rfd ≠ "--refspecs")
    (h5 : "--exclude-alias" ∉ els) (h6 : "--exclude-alias" ∉ ex)
    (h7 : gd ≠ "--exclude-alias") (h8 : rfd ≠ "--exclude-alias") :
    (("--refspecs" ∈ bstToLorryCommand els gd rfd ex l2) ↔ l2 = false)
    ∧ (∀ el ∈ els, el ∈ bstToLorryCommand els gd rfd ex l2)
    ∧ "--git-directory" ∈ bstToLorryCommand els gd rfd ex l2
    ∧ gd ∈ bstToLorryCommand els gd rfd ex l2
    ∧ "--raw-files-directory" ∈ bstToLorryCommand els gd rfd ex l2
    ∧ rfd ∈ bstToLorryCommand els gd rfd ex l2
    ∧ (bstToLorryCommand els gd rfd ex l2).count "--exclude-alias" = ex.length
    ∧ (∀ a ∈ ex, a ∈ bstToLorryCommand els gd rfd ex l2) := by
  refine ⟨?_, ?_, ?_, ?_, ?_, ?_, ?_, ?_⟩
  · constructor
    · intro hmem
      cases l2 with
      | false => rfl
      | true =>
        exfalso
        simp [bstToLorryCommand, List.mem_flatten, List.mem_map] at hmem
        rcases hmem with hmem | hmem | hmem | hmem
        · exact h1 hmem
        · exact h3 hmem.symm
        · exact h4 hmem.symm
        · exact h2 hmem
    · intro hl2
      subst hl2
      simp [bstToLorryCommand]
  · intro el hel
    simp [bstToLorryCommand, hel]
  · simp [bstToLorryCommand]
  · simp [bstToLorryCommand]
  · simp [bstToLorryCommand]
  · simp [bstToLorryCommand]
  · cases l2 <;>
      simp [bstToLorryCommand, List.count_append, List.count_cons,
        List.count_eq_zero.mpr h5, count_exclude_alias_pairs ex h6,
        Ne.symm h7, Ne.symm h8]
  · intro a ha
    simp [bstToLorryCommand, List.mem_flatten, List.mem_map]
    exact Or.inr (Or.inr (Or.inr (Or.inr (Or.inr (Or.inr (Or.inr ⟨a, ha, Or.inr rfl⟩))))))

/-- Witness for the amended C7 at the default alias list. -/
theorem bstToLorryCommand_shape_instance :
    ("--refspecs" ∈ bstToLorryCommand ["e.bst"] "gits" "files" ["fdsdk_git", "fdsdk_mirror"]
        false
      ↔ false = false)
    ∧ (bstToLorryCommand ["e.bst"] "gits" "files" ["fdsdk_git", "fdsdk_mirror"] false).count
        "--exclude-alias" = 2 := by
  have h := bstToLorryCommand_shape ["e.bst"] "gits" "files" ["fdsdk_git", "fdsdk_mirror"]
    false (by decide) (by decide) (by decide) (by decide) (by decide) (by decide)
    (by decide) (by decide)
  exact ⟨h.1, by simpa using h.2.2.2.2.2.2.1⟩

/-- takeWhile runs past a block that wholly satisfies the predicate. -/
theorem takeWhile_append_all {α : Type} (p : α → Bool) (l1 l2 : List α)
    (h : ∀ c ∈ l1, p c = true) :
    (l1 ++ l2).takeWhile p = l1 ++ l2.takeWhile p := by
  induction l1 with
  | nil => simp
  | cons a tl ih => simp_all [List.takeWhile_cons]

/-- The final path component of `a ++ "/" ++ b` is `b` whenever `b` contains
no slash. -/
theorem lastSegChars_append (a b : List Char) (hb : ∀ c ∈ b, (c == '/') = false) :
    lastSegChars (a ++ '/' :: b) = b := by
  unfold lastSegChars
  rw [List.reverse_append, List.reverse_cons, List.append_assoc]
  rw [takeWhile_append_all (fun c => !(c == '/')) b.reverse (['/'] ++ a.reverse)
    (fun c hc => by simp [hb c (List.mem_reverse.mp hc)])]
  simp [List.takeWhile_cons]

/-- Removing `.git` occurrences never introduces characters. -/
theorem mem_stripGitAllAux (fuel : Nat) (cs : List Char) :
    ∀ c ∈ stripGitAllAux fuel cs, c ∈ cs := by
  induction fuel generalizing cs with
  | zero =>
    intro c hc
    cases cs with
    | nil => simp [stripGitAllAux] at hc
    | cons a tl => simpa [stripGitAllAux] using hc
  | succ n ih =>
    intro c hc
    cases cs with
    | nil => simp [stripGitAllAux] at hc
    | cons a tl =>
      rw [stripGitAllAux] at hc
      split at hc
      · exact List.mem_cons_of_mem a (List.mem_of_mem_drop (ih (tl.drop 3) c hc))
      · rcases List.mem_cons.mp hc with h | h
        · simp [h]
        · exact List.mem_cons_of_mem a (ih tl c h)

/-- The repository name computed from a URL contains no slash. -/
theorem repoNameFromUrl_no_slash (url : String) :
    ∀ c ∈ stripGitAll (lastSegChars url.data), (c == '/') = false := by
  intro c hc
  have h1 : c ∈ lastSegChars url.data := mem_stripGitAllAux _ _ c hc
  unfold lastSegChars at h1
  have h2 := List.mem_takeWhile_imp (List.mem_reverse.mp h1)
  simpa using h2

/-- Counterexample to C8 as stated: for a URL whose final segment contains
`.git` in the middle as well as at the end, the clone directory's final
component has every occurrence removed (`ab`), not just the suffix — the
claim predicts `a.gitb`. -/
theorem clone_repo_name_strips_inner_git :
    (clone_repo envAllOk "https://host/a.gitb.git").1 = (true, some "/tmp/t/ab")
    ∧ lastPathComponent "/tmp/t/ab" = "ab"
    ∧ ¬("ab" = "a.gitb") := by
  decide

/-- C8 (amended): `clone_repo` places the clone in a fresh temporary
directory whose final component is the URL's final path segment with every
occurrence of `.git` removed, and on clone failure it yields
`(false, none)` to the caller instead of raising. -/
theorem clone_repo_dest_naming (env : Env) (url : String) :
    (env.cloneOk url = false → clone_repo env url = ((false, none), [Event.clone url false]))
    ∧ (env.cloneOk url = true →
      clone_repo env url
          = ((true, some (env.tmpdir url ++ "/" ++ repoNameFromUrl url)),
            [Event.clone url true])
        ∧ lastPathComponent (env.tmpdir url ++ "/" ++ repoNameFromUrl url)
            = repoNameFromUrl url) := by
  constructor
  · intro h; simp [clone_repo, h]
  · intro h
    refine ⟨by simp [clone_repo, h], ?_⟩
    have key : lastSegChars ((env.tmpdir url ++ "/" ++ repoNameFromUrl url).data)
        = stripGitAll (lastSegChars url.data) := by
      rw [String.data_append, String.data_append, List.append_assoc]
      exact lastSegChars_append (env.tmpdir url).data (stripGitAll (lastSegChars url.data))
        (repoNameFromUrl_no_slash url)
    unfold lastPathComponent
    rw [key]
    rfl

/-- Witness for the amended C8 at a concrete URL. -/
theorem clone_repo_dest_naming_instance :
    clone_repo envAllOk "https://host/repo.git"
        = ((true, some (envAllOk.tmpdir "https://host/repo.git"
            ++ "/" ++ repoNameFromUrl "https://host/repo.git")),
          [Event.clone "https://host/repo.git" true])
      ∧ lastPathComponent (envAllOk.tmpdir "https://host/repo.git"
            ++ "/" ++ repoNameFromUrl "https://host/repo.git")
          = repoNameFromUrl "https://host/repo.git" :=
  (clone_repo_dest_naming envAllOk "https://host/repo.git").2 rfl

/-- C9: the set of branches `cleanup_branches` explicitly deletes is exactly
the pattern-matching branches minus the source branches of open merge
requests; in particular it never deletes a pattern-matching branch that is
the source of a currently-open merge request. -/
theorem cleanup_branches_open_mr_protection (branches openSrcs : List String) (b : String) :
    (b ∈ cleanup_branches branches openSrcs
      ↔ b ∈ branches ∧ isAutomationBranch b = true ∧ b ∉ openSrcs)
    ∧ (isAutomationBranch b = true → b ∈ openSrcs →
      b ∉ cleanup_branches branches openSrcs) := by
  have hiff : b ∈ cleanup_branches branches openSrcs
      ↔ b ∈ branches ∧ isAutomationBranch b = true ∧ b ∉ openSrcs := by
    simp only [cleanup_branches, List.mem_filter]
    constructor
    · rintro ⟨⟨hbr, hauto⟩, hncont⟩
      refine ⟨hbr, hauto, ?_⟩
      intro hmem
      have hmf : b ∈ openSrcs.filter isAutomationBranch := List.mem_filter.mpr ⟨hmem, hauto⟩
      simp only [Bool.not_eq_true'] at hncont
      have hct : (openSrcs.filter isAutomationBranch).contains b = true :=
        List.elem_iff.mpr hmf
      exact Bool.noConfusion (hncont ▸ hct)
    · rintro ⟨hbr, hauto, hnmem⟩
      refine ⟨⟨hbr, hauto⟩, ?_⟩
      simp only [Bool.not_eq_true']
      cases helem : (openSrcs.filter isAutomationBranch).contains b with
      | false => rfl
      | true => exact absurd (List.mem_filter.mp (List.elem_iff.mp helem)).1 hnmem
  exact ⟨hiff, fun _ hopen hmem => (hiff.mp hmem).2.2 hopen⟩

/-- Witness for C9: an automation branch with an open merge request survives
cleanup. -/
theorem cleanup_branches_open_mr_protection_instance :
    isAutomationBranch "update-mirrors/main/123" = true
    ∧ "update-mirrors/main/123" ∉ cleanup_branches
        ["update-mirrors/main/20240101000000", "update-mirrors/main/123"]
        ["update-mirrors/main/123"] :=
  ⟨by decide,
    (cleanup_branches_open_mr_protection
      ["update-mirrors/main/20240101000000", "update-mirrors/main/123"]
      ["update-mirrors/main/123"] "update-mirrors/main/123").2 (by decide) (by decide)⟩

/-- A dirtiness probe emits exactly one status event, carrying its result. -/
theorem is_dirty_trace (env : Env) (p s : Option String) :
    (is_dirty env p s).2 = [Event.status p s (is_dirty env p s).1] := by
  cases h : env.gitStatus p s <;> simp [is_dirty, h]

/-- C10: on the empty MirrorConfig, `process_mirroring` performs no clone,
no checkout and no generation, but still probes the tracked directories: if
neither is dirty it returns success with no branch, and if either carries
pre-existing changes it creates the automation branch and commits them. -/
theorem process_mirroring_empty_config (env : Env) (gd rfd : String) (ex : List String)
    (base : String) (l2 : Bool)
    (hcb : ∀ n b, env.createBranchOk n b = true)
    (hadd : ∀ ps, env.addOk ps = true)
    (hcommit : env.commitOk = true) :
    countClone (process_mirroring env [] gd rfd ex base l2).2 = 0
    ∧ countCheckout (process_mirroring env [] gd rfd ex base l2).2 = 0
    ∧ countBst (process_mirroring env [] gd rfd ex base l2).2 = 0
    ∧ (∃ d rest, (process_mirroring env [] gd rfd ex base l2).2
        = Event.status none (some rfd) d :: rest)
    ∧ ((is_dirty env none (some rfd)).1 = false → (is_dirty env none (some gd)).1 = false →
      process_mirroring env [] gd rfd ex base l2
        = ((true, none),
          (is_dirty env none (some rfd)).2 ++ (is_dirty env none (some gd)).2))
    ∧ (((is_dirty env none (some rfd)).1 = true ∨ (is_dirty env none (some gd)).1 = true) →
      (process_mirroring env [] gd rfd ex base l2).1
          = (true, some ("update-mirrors/" ++ base ++ "/" ++ strftimeTimestamp env.now))
        ∧ countCreateOk (process_mirroring env [] gd rfd ex base l2).2 = 1
        ∧ countCommitOk (process_mirroring env [] gd rfd ex base l2).2 = 1) := by
  have hcc := commit_changes_all_ok env gd rfd base hcb hadd hcommit
  have ht1 := is_dirty_trace env none (some rfd)
  have ht2 := is_dirty_trace env none (some gd)
  cases hd1 : (is_dirty env none (some rfd)).1 with
  | true =>
    have heq : process_mirroring env [] gd rfd ex base l2
        = ((commit_changes env gd rfd base).1,
          (is_dirty env none (some rfd)).2 ++ (commit_changes env gd rfd base).2) := by
      simp [process_mirroring, processRepos, hd1]
    rw [heq, hcc, ht1, hd1]
    refine ⟨?_, ?_, ?_, ⟨true, _, rfl⟩, ?_, ?_⟩
    · simp [countClone, List.countP_cons, isCloneEvent]
    · simp [countCheckout, List.countP_cons, isCheckoutEvent]
    · simp [countBst, List.countP_cons, isBstEvent]
    · intro h1 _; exact absurd h1 (by decide)
    · intro _
      refine ⟨rfl, ?_, ?_⟩
      · simp [countCreateOk, List.countP_cons, isCreateOk]
      · simp [countCommitOk, List.countP_cons, isCommitOk]
  | false =>
    cases hd2 : (is_dirty env none (some gd)).1 with
    | false =>
      have heq : process_mirroring env [] gd rfd ex base l2
          = ((true, none),
            (is_dirty env none (some rfd)).2 ++ (is_dirty env none (some gd)).2) := by
        simp [process_mirroring, processRepos, hd1, hd2]
      rw [heq, ht1, ht2, hd1, hd2]
      refine ⟨?_, ?_, ?_, ⟨false, _, rfl⟩, fun _ _ => rfl, ?_⟩
      · simp [countClone, List.countP_cons, isCloneEvent]
      · simp [countCheckout, List.countP_cons, isCheckoutEvent]
      · simp [countBst, List.countP_cons, isBstEvent]
      · intro h
        rcases h with h | h <;> exact absurd h (by decide)
    | true =>
      have heq : process_mirroring env [] gd rfd ex base l2
          = ((commit_changes env gd rfd base).1,
            (is_dirty env none (some rfd)).2 ++ (is_dirty env none (some gd)).2
              ++ (commit_changes env gd rfd base).2) := by
        simp [process_mirroring, processRepos, hd1, hd2]
      rw [heq, hcc, ht1, ht2, hd1, hd2]
      refine ⟨?_, ?_, ?_, ⟨false, _, rfl⟩, ?_, ?_⟩
      · simp [countClone, List.countP_cons, isCloneEvent]
      · simp [countCheckout, List.countP_cons, isCheckoutEvent]
      · simp [countBst, List.countP_cons, isBstEvent]
      · intro _ h2; exact absurd h2 (by decide)
      · intro _
        refine ⟨rfl, ?_, ?_⟩
        · simp [countCreateOk, List.countP_cons, isCreateOk]
        · simp [countCommitOk, List.countP_cons, isCommitOk]

/-- Witness for C10: the empty configuration with a pre-existing dirty tree
commits on a fresh automation branch without any clone. -/
theorem process_mirroring_empty_config_instance :
    countClone (process_mirroring envAllOk [] "gits" "files" [] "main" false).2 = 0
    ∧ (process_mirroring envAllOk [] "gits" "files" [] "main" false).1
        = (true, some ("update-mirrors/" ++ "main" ++ "/" ++ strftimeTimestamp envAllOk.now)) := by
  have h := process_mirroring_empty_config envAllOk "gits" "files" [] "main" false
    (fun _ _ => rfl) (fun _ => rfl) rfl
  exact ⟨h.1, (h.2.2.2.2.2 (Or.inl (by decide))).1⟩

end LorryMirrorUpdater
